import Mathlib

set_option synthInstance.maxHeartbeats 1000000
set_option maxHeartbeats 1000000

/-
  Verification of the Step lifecycle contract of the shepherd library.

  The repository ships a type-declaration file (src/types/step.d.ts) that
  declares the public surface of a Step: its options, its lifecycle methods
  (show, hide, cancel, complete, destroy, setupElements, setOptions, isOpen,
  scrollTo, getTour) and its event-emitter base class Evented.  The method
  bodies are not part of the declaration file, so the lifecycle state machine
  below is modelled from the specification's words and checked against it.
-/

/-- Modelled from the spec: the error kinds of section 7 (the implementation
of the error hierarchy is not in the declaration file). `configuration` is a
malformed shorthand string or bad option, `showAborted` a rejected
`beforeShowPromise`, `invalidState` an operation invoked after `destroy()`. -/
inductive StepError where
  | configuration
  | showAborted
  | invalidState
  deriving DecidableEq

/-- Modelled from the spec: the effect a lifecycle listener may have on the
emitter.  A listener body is opaque JavaScript; the only emitter-visible
effect the dispatch contract constrains is registering further listeners, so
a listener action is either inert or a registration. -/
inductive LAct where
  | noop
  | register (ev : String) (act : LAct)
  deriving DecidableEq

/-- A registered listener: a numeric registration id (ids are handed out from
a counter, so later registrations have larger ids) and its action. -/
structure Listener where
  id : Nat
  act : LAct
  deriving DecidableEq

/-- Modelled from the spec: the state of the `Evented` base object.
`listeners` is kept in registration order; `invocations` is a ghost log of
listener ids in invocation order and `emitted` a ghost log of emitted event
names, used to state the dispatch and emission-count contracts. -/
structure Emitter where
  listeners : List (String × Listener) := []
  nextId : Nat := 0
  invocations : List Nat := []
  emitted : List String := []
  deriving DecidableEq

def subscribe (em : Emitter) (ev : String) (act : LAct) : Emitter :=
  { em with
    listeners := em.listeners ++ [(ev, { id := em.nextId, act := act })]
    nextId := em.nextId + 1 }

def applyAct (em : Emitter) (a : LAct) : Emitter :=
  match a with
  | .noop => em
  | .register ev act => subscribe em ev act

/-- One dispatch pass over an already-taken snapshot of listeners: each
listener is logged as invoked and its action applied to the emitter (which
may register new listeners, visible only after this pass). -/
def emitPass (em : Emitter) (snap : List Listener) : Emitter :=
  match snap with
  | [] => em
  | l :: rest => emitPass (applyAct { em with invocations := em.invocations ++ [l.id] } l.act) rest

/-- The listeners currently registered for an event, in registration order. -/
def listenersFor (em : Emitter) (ev : String) : List Listener :=
  (em.listeners.filter (fun p => p.1 = ev)).map Prod.snd

/-- Modelled from the spec: synchronous snapshot-then-iterate event dispatch
(section 4, event emission contract); the `Evented.trigger` implementation is
not in the declaration file. -/
def emit (em : Emitter) (ev : String) : Emitter :=
  emitPass { em with emitted := em.emitted ++ [ev] } (listenersFor em ev)

def subscribeAll (em : Emitter) (l : List (String × LAct)) : Emitter :=
  l.foldl (fun e p => subscribe e p.1 p.2) em

/-- Resolved attach-target descriptor: an optional element selector and an
optional placement token, as in the `StepOptionsAttachTo` declaration (its
`on` field is named `onSide` here because `on` is reserved in Lean). -/
structure AttachTo where
  element : Option String := none
  onSide : Option String := none
  deriving DecidableEq

/-- Resolved advance-trigger descriptor, as in `StepOptionsAdvanceOn`. -/
structure AdvanceOn where
  selector : Option String := none
  event : Option String := none
  deriving DecidableEq

/-- The `attachTo` option as passed in: a structured object or a shorthand
string, per the `StepOptionsAttachTo | string` declaration. -/
inductive AttachToInput where
  | str (s : String)
  | obj (element : Option String) (side : Option String)
  deriving DecidableEq

/-- The `advanceOn` option as passed in: a structured object or a shorthand
string, per the `StepOptionsAdvanceOn | string` declaration. -/
inductive AdvanceOnInput where
  | str (s : String)
  | obj (selector : Option String) (event : Option String)
  deriving DecidableEq

/-- A button descriptor from the `buttons` option (`StepOptionsButton`). -/
structure StepButton where
  text : Option String := none
  classes : Option String := none
  hasAction : Bool := false
  deriving DecidableEq

/-- Modelled from the spec: step text as a tagged variant, static content
blocks or content computed at show time (design note of section 9). -/
inductive StepText where
  | static (blocks : List String)
  | computed (blocks : List String)
  deriving DecidableEq

/-- Modelled from the spec: the options value a caller hands to the
constructor or to `setOptions`.  `beforeShowPromise` records whether the
asynchronous gate is configured; `showOn` records the predicate's value (the
predicate is opaque, only its boolean result matters to the lifecycle). -/
structure OptionsInput where
  attachTo : Option AttachToInput := none
  advanceOn : Option AdvanceOnInput := none
  beforeShowPromise : Bool := false
  showOn : Option Bool := none
  scrollTo : Bool := false
  classes : Option String := none
  highlightClass : Option String := none
  title : Option String := none
  text : Option StepText := none
  showCancelLink : Bool := false
  buttons : List StepButton := []
  when : List (String × LAct) := []
  deriving DecidableEq

/-- The step's stored configuration after `setOptions` resolved the
shorthand strings of `attachTo` and `advanceOn`. -/
structure StepOptions where
  attachTo : Option AttachTo := none
  advanceOn : Option AdvanceOn := none
  beforeShowPromise : Bool := false
  showOn : Option Bool := none
  scrollTo : Bool := false
  classes : Option String := none
  highlightClass : Option String := none
  title : Option String := none
  text : Option StepText := none
  showCancelLink : Bool := false
  buttons : List StepButton := []
  deriving DecidableEq

/-- The element-and-positioning binding created by `setupElements`: an opaque
id plus the attach target it was built for. -/
structure ElementBinding where
  id : Nat
  target : Option AttachTo
  deriving DecidableEq

/-- Modelled from the spec: the state of one Step (section 3 data model and
section 4 StepLifecycle; the Step class body is not in the declaration file).
`visualHandle` is the on-screen rendering, present only while open;
`binding` the element/positioning binding created by `setupElements`;
`pendingWait` the epoch of an outstanding `beforeShowPromise` wait;
`counter` a fresh-id source for handles, bindings and wait epochs. -/
structure StepState where
  tour : Nat := 0
  destroyed : Bool := false
  visualHandle : Option Nat := none
  binding : Option ElementBinding := none
  pendingWait : Option Nat := none
  counter : Nat := 0
  options : StepOptions := {}
  emitter : Emitter := {}
  deriving DecidableEq

/-- The outcome `show()` (or the settlement of its pre-show wait) reports to
its caller: synchronous completion, a skip, a pending asynchronous handle, an
error, or a stale settlement of a superseded/cancelled wait. -/
inductive ShowResult where
  | shown
  | skipped
  | pending (w : Nat)
  | error (e : StepError)
  | stale
  deriving DecidableEq

def evShow : String := "show"
def evHide : String := "hide"
def evCancel : String := "cancel"
def evComplete : String := "complete"
def evDestroy : String := "destroy"
def evSkipped : String := "skipped"

/-- The lifecycle event names a `when` map may subscribe to. -/
def lifecycleEvents : List String :=
  [evShow, evHide, evCancel, evComplete, evDestroy, evSkipped]

def emitStep (s : StepState) (ev : String) : StepState :=
  { s with emitter := emit s.emitter ev }

/-- `isOpen()`: true iff the visual handle currently exists. -/
def isOpen (s : StepState) : Bool :=
  s.visualHandle.isSome

/-- `getTour()`: returns the owning tour; no side effects. -/
def getTour (s : StepState) : Nat :=
  s.tour

/-- Character-level whitespace splitting: `acc` holds the characters of the
current token in reverse. -/
def tokensAux (cs : List Char) (acc : List Char) : List String :=
  match cs with
  | [] => if acc.isEmpty then [] else [⟨acc.reverse⟩]
  | c :: rest =>
    if c.isWhitespace then
      if acc.isEmpty then tokensAux rest [] else ⟨acc.reverse⟩ :: tokensAux rest []
    else tokensAux rest (c :: acc)

/-- Split a shorthand string on whitespace into its tokens. -/
def tokens (s : String) : List String :=
  tokensAux s.toList []

/-- Modelled from the spec: parsing of the `attachTo` shorthand string
`"<selector> <token>"` into `{element, on}`; a token count other than two is
a configuration error (section 4, `setOptions` constraint). -/
def resolveAttachTo (a : AttachToInput) : Except StepError AttachTo :=
  match a with
  | .obj e o => .ok { element := e, onSide := o }
  | .str sh =>
    match tokens sh with
    | [a, b] => .ok { element := some a, onSide := some b }
    | _ => .error .configuration

/-- Modelled from the spec: parsing of the `advanceOn` shorthand string
`"<selector> <event>"` into `{selector, event}`, same token rule. -/
def resolveAdvanceOn (a : AdvanceOnInput) : Except StepError AdvanceOn :=
  match a with
  | .obj sel ev => .ok { selector := sel, event := ev }
  | .str sh =>
    match tokens sh with
    | [a, b] => .ok { selector := some a, event := some b }
    | _ => .error .configuration

def resolveAttachToOpt (a : Option AttachToInput) : Except StepError (Option AttachTo) :=
  match a with
  | none => .ok none
  | some x => (resolveAttachTo x).map some

def resolveAdvanceOnOpt (a : Option AdvanceOnInput) : Except StepError (Option AdvanceOn) :=
  match a with
  | none => .ok none
  | some x => (resolveAdvanceOn x).map some

/-- Modelled from the spec: unknown event names in a `when` map are rejected
at configuration time (design note of section 9). -/
def checkWhen (l : List (String × LAct)) : Except StepError Unit :=
  if l.all (fun p => lifecycleEvents.contains p.1) then .ok () else .error .configuration

def applyOptions (st : StepState) (o : OptionsInput)
    (att : Option AttachTo) (adv : Option AdvanceOn) : StepState :=
  { st with
    options :=
      { attachTo := att
        advanceOn := adv
        beforeShowPromise := o.beforeShowPromise
        showOn := o.showOn
        scrollTo := o.scrollTo
        classes := o.classes
        highlightClass := o.highlightClass
        title := o.title
        text := o.text
        showCancelLink := o.showCancelLink
        buttons := o.buttons }
    emitter := subscribeAll st.emitter o.when }

/-- Modelled from the spec: `setOptions` (section 4): allowed only while the
visual handle does not exist (section 3 invariant); resolves the
`attachTo`/`advanceOn` shorthands, rejecting malformed ones with a
configuration error; maps each `when` entry onto the step's emitter, one
subscription per entry; stores the button descriptors.  The argument is
optional and defaults to the empty options value, per the declaration
`setOptions(options?: Step.StepOptions)`. -/
def setOptions (st : StepState) (opts : Option OptionsInput) : Except StepError StepState :=
  if isOpen st then .error .invalidState
  else
    match resolveAttachToOpt (opts.getD {}).attachTo, resolveAdvanceOnOpt (opts.getD {}).advanceOn,
        checkWhen (opts.getD {}).when with
    | .ok att, .ok adv, .ok _ => .ok (applyOptions st (opts.getD {}) att adv)
    | .error e, _, _ => .error e
    | _, .error e, _ => .error e
    | _, _, .error e => .error e

/-- Modelled from the spec: `setupElements` (section 4): idempotently
(re)creates the element and positioning binding for the current `attachTo`
target; does not by itself alter open/closed state. -/
def setupElements (s : StepState) : StepState :=
  if s.destroyed then s
  else
    match s.binding with
    | some b =>
      if b.target = s.options.attachTo then s
      else { s with binding := some { id := s.counter, target := s.options.attachTo },
                    counter := s.counter + 1 }
    | none => { s with binding := some { id := s.counter, target := s.options.attachTo },
                       counter := s.counter + 1 }

/-- Modelled from the spec: the tail of `show()` after the optional pre-show
wait settled: evaluate `showOn` (false skips the step, firing one `skipped`
event and creating no visual handle); otherwise run `setupElements`, make the
visual handle visible and fire a `show` event (section 4, `show()`). -/
def continueShow (s : StepState) : StepState × ShowResult :=
  match s.options.showOn with
  | some false => (emitStep s evSkipped, .skipped)
  | _ =>
    let s1 := setupElements s
    let s2 := { s1 with visualHandle := some s1.counter, counter := s1.counter + 1 }
    (emitStep s2 evShow, .shown)

/-- Modelled from the spec: `show()` (section 4): invalid after `destroy()`
(section 8 scenario); if a `beforeShowPromise` is configured it suspends,
returning a pending handle and recording the wait's epoch (a second `show`
supersedes an outstanding wait, section 5 policy); otherwise it completes
synchronously through `continueShow`. -/
def showStep (s : StepState) : StepState × ShowResult :=
  if s.destroyed then (s, .error .invalidState)
  else if s.options.beforeShowPromise then
    ({ s with pendingWait := some s.counter, counter := s.counter + 1 }, .pending s.counter)
  else continueShow s

/-- Modelled from the spec: settlement of the pre-show wait of epoch `w` with
`resolved` true for resolution, false for rejection.  A wait that is no
longer the step's outstanding wait (superseded, or cancelled by `hide`/
`destroy`) settles stale and changes nothing; rejection surfaces a
`ShowAbortedError` through the returned handle with no event; resolution
continues the show (sections 4, 5 and 7). -/
def settleWait (s : StepState) (w : Nat) (resolved : Bool) : StepState × ShowResult :=
  if s.destroyed then (s, .stale)
  else if s.pendingWait = some w then
    if resolved then continueShow { s with pendingWait := none }
    else ({ s with pendingWait := none }, .error .showAborted)
  else (s, .stale)

/-- Modelled from the spec: `hide()` (section 4): releases the visual handle
if present, cancels an outstanding pre-show wait (section 5 cancellation) and
fires a `hide` event; a no-op on a destroyed step. -/
def hide (s : StepState) : StepState :=
  if s.destroyed then s
  else emitStep { s with visualHandle := none, pendingWait := none } evHide

/-- Modelled from the spec: `destroy()` (section 4): fires a `destroy` event,
releases the visual handle and the positioning binding, cancels an
outstanding pre-show wait and transitions to the terminal destroyed state;
idempotent — a second call changes nothing (section 8). -/
def destroy (s : StepState) : StepState :=
  if s.destroyed then s
  else emitStep { s with visualHandle := none, binding := none,
                         pendingWait := none, destroyed := true } evDestroy

/-- Modelled from the spec: `cancel()` (section 4): fires a `cancel` event,
then performs the same teardown as `destroy` (tour-abort path). -/
def cancel (s : StepState) : StepState :=
  if s.destroyed then s else destroy (emitStep s evCancel)

/-- Modelled from the spec: `complete()` (section 4): fires a `complete`
event, then performs the same teardown as `cancel` (success path). -/
def complete (s : StepState) : StepState :=
  if s.destroyed then s else destroy (emitStep s evComplete)

/-- Modelled from the spec: `scrollTo()` (section 4): delegates to the custom
handler or performs the default bring-into-view action; no state change. -/
def scrollTo (s : StepState) : StepState :=
  s

/-- The operations a caller (the Tour) can invoke on a step, including the
runtime's later settlement of a pre-show wait. -/
inductive Op where
  | opShow
  | opSettleWait (w : Nat) (resolved : Bool)
  | opHide
  | opCancel
  | opComplete
  | opDestroy
  | opSetupElements
  | opScrollTo
  | opSetOptions (o : Option OptionsInput)
  deriving DecidableEq

/-- State reached after one operation (results projected away; a failing
`setOptions` leaves the state unchanged, as the error is thrown to the
caller before any mutation). -/
def runOp (s : StepState) (op : Op) : StepState :=
  match op with
  | .opShow => (showStep s).1
  | .opSettleWait w r => (settleWait s w r).1
  | .opHide => hide s
  | .opCancel => cancel s
  | .opComplete => complete s
  | .opDestroy => destroy s
  | .opSetupElements => setupElements s
  | .opScrollTo => scrollTo s
  | .opSetOptions o =>
    match setOptions s o with
    | .ok s1 => s1
    | .error _ => s

/-- Well-formedness of an emitter: every registered id was handed out by the
counter, and registration ids are pairwise distinct. -/
def EmitterWF (em : Emitter) : Prop :=
  (∀ p ∈ em.listeners, p.2.id < em.nextId) ∧
    em.listeners.Pairwise (fun a b => a.2.id ≠ b.2.id)

/-- Well-formedness of a step state: a destroyed step holds no visual handle
and no outstanding pre-show wait (established by `destroy` and preserved by
every operation). -/
def StepWF (s : StepState) : Prop :=
  s.destroyed = true → s.visualHandle = none ∧ s.pendingWait = none

/-- A freshly constructed step: closed, not destroyed, default options. -/
def initStep : StepState := {}

instance (em : Emitter) : Decidable (EmitterWF em) := by
  unfold EmitterWF
  infer_instance

instance (s : StepState) : Decidable (StepWF s) := by
  unfold StepWF
  infer_instance

/-- An emitter with one inert `show` listener registered, used as a concrete
sample state. -/
def sampleEmitter : Emitter := subscribe {} evShow (LAct.register evShow LAct.noop)

lemma applyAct_invocations (em : Emitter) (a : LAct) :
    (applyAct em a).invocations = em.invocations := by
  cases a <;> rfl

lemma applyAct_emitted (em : Emitter) (a : LAct) :
    (applyAct em a).emitted = em.emitted := by
  cases a <;> rfl

lemma applyAct_nextId (em : Emitter) (a : LAct) :
    em.nextId ≤ (applyAct em a).nextId := by
  cases a <;> simp [applyAct, subscribe]

lemma applyAct_listeners (em : Emitter) (a : LAct) :
    ∀ p ∈ (applyAct em a).listeners, p ∈ em.listeners ∨ em.nextId ≤ p.2.id := by
  cases a with
  | noop => intro p hp; exact Or.inl hp
  | register ev act =>
    intro p hp
    simp only [applyAct, subscribe, List.mem_append, List.mem_singleton] at hp
    rcases hp with hp | hp
    · exact Or.inl hp
    · subst hp; exact Or.inr le_rfl

lemma emitPass_invocations (snap : List Listener) (em : Emitter) :
    (emitPass em snap).invocations = em.invocations ++ snap.map Listener.id := by
  induction snap generalizing em with
  | nil => simp [emitPass]
  | cons l rest ih =>
    simp [emitPass, ih, applyAct_invocations]

lemma emitPass_emitted (snap : List Listener) (em : Emitter) :
    (emitPass em snap).emitted = em.emitted := by
  induction snap generalizing em with
  | nil => rfl
  | cons l rest ih =>
    simp [emitPass, ih, applyAct_emitted]

lemma emitPass_nextId (snap : List Listener) (em : Emitter) :
    em.nextId ≤ (emitPass em snap).nextId := by
  induction snap generalizing em with
  | nil => exact le_rfl
  | cons l rest ih =>
    exact le_trans
      (applyAct_nextId { em with invocations := em.invocations ++ [l.id] } l.act)
      (ih (applyAct { em with invocations := em.invocations ++ [l.id] } l.act))

lemma emitPass_listeners (snap : List Listener) (em : Emitter) :
    ∀ p ∈ (emitPass em snap).listeners, p ∈ em.listeners ∨ em.nextId ≤ p.2.id := by
  induction snap generalizing em with
  | nil => intro p hp; exact Or.inl hp
  | cons l rest ih =>
    intro p hp
    rcases ih (applyAct { em with invocations := em.invocations ++ [l.id] } l.act) p hp
      with hp1 | hp1
    · rcases applyAct_listeners { em with invocations := em.invocations ++ [l.id] } l.act p hp1
        with hp2 | hp2
      · exact Or.inl hp2
      · exact Or.inr hp2
    · exact Or.inr
        (le_trans (applyAct_nextId { em with invocations := em.invocations ++ [l.id] } l.act) hp1)

lemma emit_invocations (em : Emitter) (ev : String) :
    (emit em ev).invocations = em.invocations ++ (listenersFor em ev).map Listener.id := by
  simp [emit, emitPass_invocations]

lemma emit_emitted (em : Emitter) (ev : String) :
    (emit em ev).emitted = em.emitted ++ [ev] := by
  simp [emit, emitPass_emitted]

lemma listenersFor_id_nodup (em : Emitter) (ev : String) (hwf : EmitterWF em) :
    ((listenersFor em ev).map Listener.id).Nodup := by
  have h2 : (em.listeners.filter (fun p => decide (p.1 = ev))).Pairwise
      (fun a b => a.2.id ≠ b.2.id) :=
    hwf.2.sublist (List.filter_sublist _)
  unfold listenersFor
  rw [List.map_map]
  exact List.pairwise_map.mpr h2

lemma listenersFor_id_lt (em : Emitter) (ev : String) (hwf : EmitterWF em) :
    ∀ i ∈ (listenersFor em ev).map Listener.id, i < em.nextId := by
  intro i hi
  rcases List.mem_map.mp hi with ⟨l, hl, rfl⟩
  rcases List.mem_map.mp hl with ⟨p, hp, rfl⟩
  exact hwf.1 p (List.mem_of_mem_filter hp)

lemma emitStep_visualHandle (s : StepState) (ev : String) :
    (emitStep s ev).visualHandle = s.visualHandle := rfl

lemma emitStep_destroyed (s : StepState) (ev : String) :
    (emitStep s ev).destroyed = s.destroyed := rfl

lemma emitStep_emitted (s : StepState) (ev : String) :
    (emitStep s ev).emitter.emitted = s.emitter.emitted ++ [ev] := by
  simp [emitStep, emit_emitted]

lemma destroy_destroyed (s : StepState) : (destroy s).destroyed = true := by
  unfold destroy
  split
  · assumption
  · rfl

lemma destroy_handle_not_destroyed (s : StepState) (h : s.destroyed = false) :
    (destroy s).visualHandle = none := by
  simp [destroy, h, emitStep]

lemma destroy_pending_not_destroyed (s : StepState) (h : s.destroyed = false) :
    (destroy s).pendingWait = none := by
  simp [destroy, h, emitStep]

lemma destroy_handle (s : StepState) (hwf : StepWF s) : (destroy s).visualHandle = none := by
  cases hd : s.destroyed
  · exact destroy_handle_not_destroyed s hd
  · simpa [destroy, hd] using (hwf hd).1

lemma destroy_pending (s : StepState) (hwf : StepWF s) : (destroy s).pendingWait = none := by
  cases hd : s.destroyed
  · exact destroy_pending_not_destroyed s hd
  · simpa [destroy, hd] using (hwf hd).2

lemma hide_handle (s : StepState) (hwf : StepWF s) : (hide s).visualHandle = none := by
  cases hd : s.destroyed
  · simp [hide, hd, emitStep]
  · simpa [hide, hd] using (hwf hd).1

lemma hide_pending (s : StepState) (hwf : StepWF s) : (hide s).pendingWait = none := by
  cases hd : s.destroyed
  · simp [hide, hd, emitStep]
  · simpa [hide, hd] using (hwf hd).2

lemma hide_destroyed (s : StepState) : (hide s).destroyed = s.destroyed := by
  cases hd : s.destroyed <;> simp [hide, hd, emitStep]

lemma cancel_handle (s : StepState) (hwf : StepWF s) : (cancel s).visualHandle = none := by
  cases hd : s.destroyed
  · simp only [cancel, hd, if_neg Bool.false_ne_true]
    exact destroy_handle_not_destroyed _ (by simp [emitStep, hd])
  · simpa [cancel, hd] using (hwf hd).1

lemma complete_handle (s : StepState) (hwf : StepWF s) : (complete s).visualHandle = none := by
  cases hd : s.destroyed
  · simp only [complete, hd, if_neg Bool.false_ne_true]
    exact destroy_handle_not_destroyed _ (by simp [emitStep, hd])
  · simpa [complete, hd] using (hwf hd).1

lemma setupElements_handle (s : StepState) :
    (setupElements s).visualHandle = s.visualHandle := by
  unfold setupElements
  split
  · rfl
  · split
    · split
      · rfl
      · rfl
    · rfl

lemma setupElements_destroyed (s : StepState) :
    (setupElements s).destroyed = s.destroyed := by
  unfold setupElements
  split
  · rfl
  · split
    · split
      · rfl
      · rfl
    · rfl

lemma settleWait_false_handle (s : StepState) (w : Nat) :
    (settleWait s w false).1.visualHandle = s.visualHandle := by
  unfold settleWait
  split
  · rfl
  · split
    · simp
    · rfl

lemma setOptions_ok_fields (st : StepState) (o : Option OptionsInput) (s1 : StepState)
    (h : setOptions st o = .ok s1) :
    s1.visualHandle = st.visualHandle ∧ s1.destroyed = st.destroyed ∧
      s1.pendingWait = st.pendingWait ∧ s1.binding = st.binding := by
  unfold setOptions at h
  split at h
  · exact Except.noConfusion h
  · split at h
    · cases h
      simp [applyOptions]
    · exact Except.noConfusion h
    · exact Except.noConfusion h
    · exact Except.noConfusion h

lemma destroy_of_destroyed (t : StepState) (h : t.destroyed = true) : destroy t = t := by
  simp [destroy, h]

/-- A step configured with a `showOn` predicate that returns false. -/
def stepShowOnFalse : StepState := { initStep with options := { showOn := some false } }

/-- A step configured with a `beforeShowPromise` gate. -/
def stepBeforeShow : StepState := { initStep with options := { beforeShowPromise := true } }

/-- A destroyed step. -/
def stepDestroyed : StepState := destroy initStep

/-- A step whose `show()` is suspended on an outstanding pre-show wait. -/
def stepPending : StepState := (showStep stepBeforeShow).1

/-- Claim C1: at every point in a step's lifecycle, `isOpen()` is true iff
the visual handle exists: `hide`, `cancel`, `complete` and `destroy` release
the handle (closing the step); `setupElements`, `scrollTo` and `setOptions`
never change it; and the only operations that can take a closed step to an
open state are `show()` and the resolution of the most recent `show()`'s
pre-show wait. -/
theorem step_open_handle_invariant (s : StepState) (hwf : StepWF s) :
    isOpen (runOp s Op.opHide) = false
    ∧ isOpen (runOp s Op.opCancel) = false
    ∧ isOpen (runOp s Op.opComplete) = false
    ∧ isOpen (runOp s Op.opDestroy) = false
    ∧ isOpen (runOp s Op.opSetupElements) = isOpen s
    ∧ isOpen (runOp s Op.opScrollTo) = isOpen s
    ∧ (∀ o, isOpen (runOp s (Op.opSetOptions o)) = isOpen s)
    ∧ (∀ op, isOpen s = false → isOpen (runOp s op) = true →
        op = Op.opShow ∨ ∃ w, op = Op.opSettleWait w true) := by
  refine ⟨?_, ?_, ?_, ?_, ?_, ?_, ?_, ?_⟩
  · simp [runOp, isOpen, hide_handle s hwf]
  · simp [runOp, isOpen, cancel_handle s hwf]
  · simp [runOp, isOpen, complete_handle s hwf]
  · simp [runOp, isOpen, destroy_handle s hwf]
  · simp [runOp, isOpen, setupElements_handle]
  · rfl
  · intro o
    cases hso : setOptions s o with
    | ok s1 => simp [runOp, hso, isOpen, (setOptions_ok_fields s o s1 hso).1]
    | error e => simp [runOp, hso]
  · intro op h0 h1
    cases op with
    | opShow => exact Or.inl rfl
    | opSettleWait w r =>
      cases r with
      | true => exact Or.inr ⟨w, rfl⟩
      | false =>
        simp only [runOp, isOpen, settleWait_false_handle s w] at h1
        simp only [isOpen] at h0
        rw [h0] at h1
        exact absurd h1 (by simp)
    | opHide =>
      rw [show runOp s Op.opHide = hide s from rfl] at h1
      simp [isOpen, hide_handle s hwf] at h1
    | opCancel =>
      rw [show runOp s Op.opCancel = cancel s from rfl] at h1
      simp [isOpen, cancel_handle s hwf] at h1
    | opComplete =>
      rw [show runOp s Op.opComplete = complete s from rfl] at h1
      simp [isOpen, complete_handle s hwf] at h1
    | opDestroy =>
      rw [show runOp s Op.opDestroy = destroy s from rfl] at h1
      simp [isOpen, destroy_handle s hwf] at h1
    | opSetupElements =>
      simp only [runOp, isOpen, setupElements_handle] at h1
      simp only [isOpen] at h0
      rw [h0] at h1
      exact absurd h1 (by simp)
    | opScrollTo =>
      simp only [runOp, scrollTo] at h1
      rw [h0] at h1
      exact absurd h1 (by simp)
    | opSetOptions o =>
      cases hso : setOptions s o with
      | ok s1 =>
        simp only [runOp, hso, isOpen, (setOptions_ok_fields s o s1 hso).1] at h1
        simp only [isOpen] at h0
        rw [h0] at h1
        exact absurd h1 (by simp)
      | error e =>
        simp only [runOp, hso] at h1
        rw [h0] at h1
        exact absurd h1 (by simp)

/-- Claim C1 witness: applied to a freshly constructed step. -/
theorem step_open_handle_invariant_witness :
    StepWF initStep ∧ isOpen (runOp initStep Op.opHide) = false :=
  ⟨by decide, (step_open_handle_invariant initStep (by decide)).1⟩

/-- Claim C5: the destroyed state is terminal.  On a destroyed step `show()`
fails with an `InvalidStateError` and leaves the state unchanged, and no
operation whatsoever makes the step open again or leaves the destroyed
state. -/
theorem destroyed_terminal (s : StepState) (hwf : StepWF s) (hd : s.destroyed = true) :
    (showStep s).2 = ShowResult.error StepError.invalidState
    ∧ (showStep s).1 = s
    ∧ ∀ op, (runOp s op).destroyed = true ∧ isOpen (runOp s op) = false := by
  have hh : s.visualHandle = none := (hwf hd).1
  refine ⟨by simp [showStep, hd], by simp [showStep, hd], ?_⟩
  intro op
  cases op with
  | opShow => simp [runOp, showStep, hd, isOpen, hh]
  | opSettleWait w r => simp [runOp, settleWait, hd, isOpen, hh]
  | opHide => simp [runOp, hide, hd, isOpen, hh]
  | opCancel => simp [runOp, cancel, hd, isOpen, hh]
  | opComplete => simp [runOp, complete, hd, isOpen, hh]
  | opDestroy => simp [runOp, destroy, hd, isOpen, hh]
  | opSetupElements => simp [runOp, setupElements, hd, isOpen, hh]
  | opScrollTo => simp [runOp, scrollTo, hd, isOpen, hh]
  | opSetOptions o =>
    cases hso : setOptions s o with
    | ok s1 =>
      obtain ⟨h1, h2, _, _⟩ := setOptions_ok_fields s o s1 hso
      simp [runOp, hso, isOpen, h1, h2, hd, hh]
    | error e => simp [runOp, hso, hd, isOpen, hh]

/-- Claim C5 witness: applied to a freshly destroyed step. -/
theorem destroyed_terminal_witness :
    StepWF stepDestroyed ∧ stepDestroyed.destroyed = true
    ∧ (showStep stepDestroyed).2 = ShowResult.error StepError.invalidState :=
  ⟨by decide, by decide, (destroyed_terminal stepDestroyed (by decide) (by decide)).1⟩

/-- Claim C6: `destroy()` is idempotent: a second call changes nothing — in
particular it emits no additional `destroy` event — and, being total, it does
not throw. -/
theorem destroy_idempotent (s : StepState) :
    destroy (destroy s) = destroy s
    ∧ (destroy (destroy s)).emitter.emitted = (destroy s).emitter.emitted := by
  have h : destroy (destroy s) = destroy s :=
    destroy_of_destroyed (destroy s) (destroy_destroyed s)
  exact ⟨h, by rw [h]⟩

/-- Claim C8: a hidden or destroyed step never resurrects: settling a
pre-show wait that was outstanding when `hide()` or `destroy()` ran creates
no visual handle, whichever way the promise settles. -/
theorem no_resurrect (s : StepState) (hwf : StepWF s) (w : Nat)
    (hp : s.pendingWait = some w) (b : Bool) :
    (settleWait (hide s) w b).1.visualHandle = none
    ∧ (settleWait (destroy s) w b).1.visualHandle = none := by
  have hd : s.destroyed = false := by
    cases hdd : s.destroyed
    · rfl
    · rw [(hwf hdd).2] at hp
      exact absurd hp (by simp)
  constructor
  · have h1 : (hide s).pendingWait = none := hide_pending s hwf
    have h2 : (hide s).visualHandle = none := hide_handle s hwf
    have h3 : (hide s).destroyed = false := by rw [hide_destroyed, hd]
    simp [settleWait, h1, h2, h3]
  · have h2 : (destroy s).visualHandle = none := destroy_handle s hwf
    simp [settleWait, destroy_destroyed, h2]

/-- Claim C8 witness: applied to a step suspended on a pre-show wait. -/
theorem no_resurrect_witness :
    StepWF stepPending ∧ stepPending.pendingWait = some 0
    ∧ (settleWait (hide stepPending) 0 true).1.visualHandle = none :=
  ⟨by decide, by decide, (no_resurrect stepPending (by decide) 0 (by decide) true).1⟩

/-- Claim C9: on a non-destroyed step, `setupElements()` is idempotent — a
second call yields the same visual-element and positioning binding state as
one call — and a call by itself leaves `isOpen()` unchanged. -/
theorem setupElements_idempotent (s : StepState) (hd : s.destroyed = false) :
    setupElements (setupElements s) = setupElements s
    ∧ isOpen (setupElements s) = isOpen s := by
  constructor
  · rcases hb : s.binding with _ | b
    · simp [setupElements, hd, hb]
    · by_cases ht : b.target = s.options.attachTo
      · simp [setupElements, hd, hb, ht]
      · simp [setupElements, hd, hb, ht]
  · simp [isOpen, setupElements_handle]

/-- Claim C9 witness: applied to a freshly constructed step. -/
theorem setupElements_idempotent_witness :
    initStep.destroyed = false
    ∧ setupElements (setupElements initStep) = setupElements initStep :=
  ⟨by decide, (setupElements_idempotent initStep (by decide)).1⟩

/-- The malformed shorthand example from the spec. -/
def oneTok : String := "only-one-token"

/-- The well-formed shorthand example from the spec. -/
def twoTok : String := ".target left"

/-- Claim C2: a shorthand string for `attachTo` or `advanceOn` is split on
whitespace; exactly two tokens parse into the structured pair, any other
token count makes `setOptions` fail synchronously with a configuration
error. -/
theorem shorthand_two_tokens (st : StepState) (ho : isOpen st = false) (sh : String) :
    ((tokens sh).length ≠ 2 →
        setOptions st (some { attachTo := some (AttachToInput.str sh) })
          = Except.error StepError.configuration
      ∧ setOptions st (some { advanceOn := some (AdvanceOnInput.str sh) })
          = Except.error StepError.configuration)
    ∧ (∀ a b, tokens sh = [a, b] →
        (∃ s1, setOptions st (some { attachTo := some (AttachToInput.str sh) }) = Except.ok s1
          ∧ s1.options.attachTo = some { element := some a, onSide := some b })
      ∧ (∃ s2, setOptions st (some { advanceOn := some (AdvanceOnInput.str sh) }) = Except.ok s2
          ∧ s2.options.advanceOn = some { selector := some a, event := some b })) := by
  constructor
  · intro hlen
    have hres1 : resolveAttachTo (AttachToInput.str sh) = Except.error StepError.configuration := by
      cases htk : tokens sh with
      | nil => simp [resolveAttachTo, htk]
      | cons a rest =>
        cases rest with
        | nil => simp [resolveAttachTo, htk]
        | cons b rest2 =>
          cases rest2 with
          | nil => exact absurd (by simp [htk]) hlen
          | cons c rest3 => simp [resolveAttachTo, htk]
    have hres2 : resolveAdvanceOn (AdvanceOnInput.str sh) = Except.error StepError.configuration := by
      cases htk : tokens sh with
      | nil => simp [resolveAdvanceOn, htk]
      | cons a rest =>
        cases rest with
        | nil => simp [resolveAdvanceOn, htk]
        | cons b rest2 =>
          cases rest2 with
          | nil => exact absurd (by simp [htk]) hlen
          | cons c rest3 => simp [resolveAdvanceOn, htk]
    constructor
    · simp [setOptions, ho, resolveAttachToOpt, hres1, resolveAdvanceOnOpt, checkWhen, Except.map]
    · simp [setOptions, ho, resolveAttachToOpt, resolveAdvanceOnOpt, hres2, checkWhen, Except.map]
  · intro a b htk
    have hres1 : resolveAttachTo (AttachToInput.str sh)
        = Except.ok { element := some a, onSide := some b } := by
      simp [resolveAttachTo, htk]
    have hres2 : resolveAdvanceOn (AdvanceOnInput.str sh)
        = Except.ok { selector := some a, event := some b } := by
      simp [resolveAdvanceOn, htk]
    constructor
    · refine ⟨applyOptions st { attachTo := some (AttachToInput.str sh) }
          (some { element := some a, onSide := some b }) none, ?_, ?_⟩
      · simp [setOptions, ho, resolveAttachToOpt, hres1, resolveAdvanceOnOpt, checkWhen, Except.map]
      · simp [applyOptions]
    · refine ⟨applyOptions st { advanceOn := some (AdvanceOnInput.str sh) } none
          (some { selector := some a, event := some b }), ?_, ?_⟩
      · simp [setOptions, ho, resolveAttachToOpt, resolveAdvanceOnOpt, hres2, checkWhen, Except.map]
      · simp [applyOptions]

/-- Claim C2 witness: the spec's own examples, a one-token string rejected
on a fresh step. -/
theorem shorthand_two_tokens_witness :
    isOpen initStep = false
    ∧ (tokens oneTok).length ≠ 2
    ∧ setOptions initStep (some { attachTo := some (AttachToInput.str oneTok) })
        = Except.error StepError.configuration :=
  ⟨by decide, by decide, ((shorthand_two_tokens initStep (by decide) oneTok).1 (by decide)).1⟩

/-- Claim C3: when the configured `showOn` predicate returns false, showing
the step creates no visual handle and emits exactly one `skipped` event and
no `show` event — both on the synchronous path and on settlement of a
pre-show wait. -/
theorem showOn_false_skips (s : StepState) (hd : s.destroyed = false)
    (hb : s.options.beforeShowPromise = false) (hso : s.options.showOn = some false) :
    (showStep s).2 = ShowResult.skipped
    ∧ (showStep s).1.visualHandle = s.visualHandle
    ∧ (showStep s).1.emitter.emitted = s.emitter.emitted ++ [evSkipped]
    ∧ (∀ t w, t.destroyed = false → t.options.showOn = some false → t.pendingWait = some w →
        (settleWait t w true).2 = ShowResult.skipped
        ∧ (settleWait t w true).1.visualHandle = t.visualHandle
        ∧ (settleWait t w true).1.emitter.emitted = t.emitter.emitted ++ [evSkipped]) := by
  refine ⟨?_, ?_, ?_, ?_⟩
  · simp [showStep, hd, hb, continueShow, hso]
  · simp [showStep, hd, hb, continueShow, hso, emitStep]
  · simp [showStep, hd, hb, continueShow, hso, emitStep, emit_emitted]
  · intro t w htd htso htp
    refine ⟨?_, ?_, ?_⟩
    · simp [settleWait, htd, htp, continueShow, htso]
    · simp [settleWait, htd, htp, continueShow, htso, emitStep]
    · simp [settleWait, htd, htp, continueShow, htso, emitStep, emit_emitted]

/-- Claim C3 witness: a fresh step whose `showOn` returns false. -/
theorem showOn_false_skips_witness :
    stepShowOnFalse.destroyed = false
    ∧ stepShowOnFalse.options.beforeShowPromise = false
    ∧ stepShowOnFalse.options.showOn = some false
    ∧ (showStep stepShowOnFalse).2 = ShowResult.skipped :=
  ⟨by decide, by decide, by decide,
    (showOn_false_skips stepShowOnFalse (by decide) (by decide) (by decide)).1⟩

/-- Claim C4: with a `beforeShowPromise` configured, `show()` returns a
pending completion handle; if the promise rejects, that handle reflects a
`ShowAbortedError`, no event at all (in particular no `show`) is emitted,
and `isOpen()` remains false. -/
theorem beforeShow_reject (s : StepState) (hd : s.destroyed = false)
    (hb : s.options.beforeShowPromise = true) (ho : isOpen s = false) :
    (∃ w, (showStep s).2 = ShowResult.pending w)
    ∧ (∀ w, (showStep s).2 = ShowResult.pending w →
        (settleWait (showStep s).1 w false).2 = ShowResult.error StepError.showAborted
        ∧ (settleWait (showStep s).1 w false).1.emitter.emitted = s.emitter.emitted
        ∧ isOpen (settleWait (showStep s).1 w false).1 = false) := by
  have hshow : showStep s
      = ({ s with pendingWait := some s.counter, counter := s.counter + 1 },
          ShowResult.pending s.counter) := by
    simp [showStep, hd, hb]
  refine ⟨⟨s.counter, by rw [hshow]⟩, ?_⟩
  intro w hw
  rw [hshow] at hw
  simp only [Prod.snd] at hw
  have hww : w = s.counter := by
    injection hw with h
    exact h.symm
  subst hww
  rw [hshow]
  refine ⟨?_, ?_, ?_⟩
  · simp [settleWait, hd]
  · simp [settleWait, hd]
  · simpa [settleWait, hd, isOpen] using ho

/-- Claim C4 witness: a fresh step with a `beforeShowPromise` configured. -/
theorem beforeShow_reject_witness :
    stepBeforeShow.destroyed = false
    ∧ stepBeforeShow.options.beforeShowPromise = true
    ∧ isOpen stepBeforeShow = false
    ∧ ∃ w, (showStep stepBeforeShow).2 = ShowResult.pending w :=
  ⟨by decide, by decide, by decide,
    (beforeShow_reject stepBeforeShow (by decide) (by decide) (by decide)).1⟩

/-- Claim C7: emitting a lifecycle event dispatches synchronously to exactly
the listeners registered for it at the moment of dispatch, in registration
order and exactly once each; ids handed out during the pass (listeners
registered by a running listener) are never among the invoked ids, and every
listener present after the pass either predates it or was registered during
it (snapshot-then-iterate). -/
theorem lifecycle_event_dispatch (em : Emitter) (ev : String)
    (hwf : EmitterWF em) (_hev : ev ∈ lifecycleEvents) :
    (emit em ev).invocations = em.invocations ++ (listenersFor em ev).map Listener.id
    ∧ (∀ l ∈ listenersFor em ev, ((listenersFor em ev).map Listener.id).count l.id = 1)
    ∧ (∀ i, em.nextId ≤ i → i ∉ (listenersFor em ev).map Listener.id)
    ∧ (∀ p ∈ (emit em ev).listeners, p ∈ em.listeners ∨ em.nextId ≤ p.2.id) := by
  refine ⟨emit_invocations em ev, ?_, ?_, ?_⟩
  · intro l hl
    exact List.count_eq_one_of_mem (listenersFor_id_nodup em ev hwf)
      (List.mem_map_of_mem _ hl)
  · intro i hi hmem
    exact absurd (listenersFor_id_lt em ev hwf i hmem) (not_lt.mpr hi)
  · intro p hp
    exact emitPass_listeners (listenersFor em ev) { em with emitted := em.emitted ++ [ev] } p hp

/-- Claim C7 witness: an emitter with one registered `show` listener. -/
theorem lifecycle_event_dispatch_witness :
    EmitterWF sampleEmitter ∧ evShow ∈ lifecycleEvents
    ∧ (emit sampleEmitter evShow).invocations
        = sampleEmitter.invocations ++ (listenersFor sampleEmitter evShow).map Listener.id :=
  ⟨by decide, by decide,
    (lifecycle_event_dispatch sampleEmitter evShow (by decide) (by decide)).1⟩

/-- Claim C10: while the visual handle does not exist, `setOptions` may be
called with no argument; the call succeeds and is the same call as
`setOptions` with the empty options object. -/
theorem setOptions_optional_arg (st : StepState) (ho : isOpen st = false) :
    setOptions st none = setOptions st (some {})
    ∧ ∃ s1, setOptions st none = Except.ok s1 := by
  constructor
  · rfl
  · refine ⟨applyOptions st {} none none, ?_⟩
    simp [setOptions, ho, resolveAttachToOpt, resolveAdvanceOnOpt, checkWhen]

/-- Claim C10 witness: a fresh (closed) step. -/
theorem setOptions_optional_arg_witness :
    isOpen initStep = false
    ∧ setOptions initStep none = setOptions initStep (some {}) :=
  ⟨by decide, (setOptions_optional_arg initStep (by decide)).1⟩
